import Mathlib

/-!
Verification development for the DPoS consensus engine of the Boker repository
(file go-ethereum/consensus/dpos/dpos.go).  The Go code is shallowly embedded:
pure functions become Lean functions, the stateful finality tracker becomes
explicit state passing, machine integers become Nat/Int (Go big.Int conversions
Int64/Uint64 are exact on in-range values and undefined by the Go documentation
outside that range; where genuine fixed-width wrap-around is defined behaviour,
for example uint64 addition, it is modelled with an explicit mod 2^64).
Keccak hashes are modelled as injective identifiers: the header hash is carried
as a field of the header, and the signing pre-image is the tuple of the hashed
fields themselves.  External collaborators (the chain reader, the trie store,
the elliptic-curve recovery primitive, the fork-hash checker) are parameters of
the embedded functions.  The protocol constants ProducerInterval, EpochInterval
and ConsensusSize live in the repository package "include", which is not part
of the sources here; every definition is therefore parametrised by them.  The
extra-data vanity and seal lengths are fixed to 32 and 65 bytes as the Go error
messages and the specification state.
-/

namespace Dpos

/-- Extra-data vanity prefix length in bytes (include.ExtraVanity).
Modelled from the spec: the constant lives in the missing package "include";
spec section 6 fixes it to 32 bytes, as do the Go error strings. -/
def extraVanity : Nat := 32

/-- Extra-data trailing signature length in bytes (include.ExtraSeal).
Modelled from the spec: the constant lives in the missing package "include";
spec section 6 fixes it to 65 bytes, as do the Go error strings. -/
def extraSeal : Nat := 65

/-- Canonical empty-uncle hash, the Go package variable uncleHash =
types.CalcUncleHash(nil).  Hashes are abstract identifiers in the model; the
only relevant property is that this constant differs from the zero hash 0. -/
def uncleHash : Nat := 1

/-- Error values of the dpos package, together with the external errors the
engine forwards (consensus.ErrFutureBlock, consensus.ErrUnknownAncestor,
include.ErrInvalidMintBlockTime) and opaque stand-ins for collaborator
failures. -/
inductive DposError where
  | unknownBlock
  | missingVanity
  | missingSignature
  | invalidMixDigest
  | invalidUncleHash
  | invalidDifficulty
  | invalidTimestamp
  | waitForPrevBlock
  | mintFutureBlock
  | mismatchSignerAndValidator
  | invalidBlockProducer
  | invalidTokenNoder
  | nilBlockHeader
  | futureBlock
  | unknownAncestor
  | invalidMintBlockTime
  | storageError
  | cryptoError
  | forkError
  deriving Repr, DecidableEq

/-- Block header (types.Header), restricted to the fields the dpos package
reads.  Addresses and hashes are abstract Nat identifiers.  The number field is
an Option because the Go field is a nullable big.Int pointer checked against
nil in verifyHeader.  The hash field models the derived Keccak header hash
types.Header.Hash(), treated as an injective identifier. -/
structure Header where
  parentHash : Nat
  uncleHash : Nat
  validator : Nat
  coinbase : Nat
  root : Nat
  txHash : Nat
  receiptHash : Nat
  bloom : Nat
  difficulty : Nat
  number : Option Nat
  gasLimit : Nat
  gasUsed : Nat
  time : Int
  extra : List Nat
  mixDigest : Nat
  nonce : Nat
  dposRoot : Nat
  hash : Nat
  deriving Repr, DecidableEq

/-- Value of header.Number.Uint64() for the call sites the Go code only reaches
with a non-nil number; the default 0 is never relied upon by a theorem with a
nil number. -/
def hNum (h : Header) : Nat := h.number.getD 0

/-- Go conversion of a big.Int (or int64) value to uint64: exact on
[0, 2^64), reduction mod 2^64 otherwise (the big.Int conversion is undefined
there by the Go documentation; the int64 conversion wraps exactly like this). -/
def u64 (t : Int) : Nat := (t % (2 : Int) ^ 64).toNat

/-- Go expression number-1 on uint64 values (wraps at 0). -/
def sub1u64 (n : Nat) : Nat := (n + (2 ^ 64 - 1)) % 2 ^ 64

/-- Chain reader collaborator (consensus.ChainReader), restricted to the
lookups the dpos package performs. -/
structure Chain where
  getHeader : Nat → Nat → Option Header
  getHeaderByHash : Nat → Option Header
  getHeaderByNumber : Nat → Option Header
  currentHeader : Header

/-- Signing pre-image produced by sigHash: the RLP tuple of every header field
except the trailing 65 signature bytes of extra-data.  Keccak is modelled as
injective, so the pre-image tuple itself stands for its hash. -/
structure SigPreimage where
  parentHash : Nat
  uncleHash : Nat
  validator : Nat
  coinbase : Nat
  root : Nat
  txHash : Nat
  receiptHash : Nat
  bloom : Nat
  difficulty : Nat
  number : Option Nat
  gasLimit : Nat
  gasUsed : Nat
  time : Int
  extraNoSeal : List Nat
  mixDigest : Nat
  nonce : Nat
  dposRoot : Nat
  deriving Repr, DecidableEq

/-- Embedding of sigHash: collects all header fields with the signature suffix
stripped from extra-data (header.Extra[:len(header.Extra)-65]). -/
def sigHash (h : Header) : SigPreimage :=
  { parentHash := h.parentHash
    uncleHash := h.uncleHash
    validator := h.validator
    coinbase := h.coinbase
    root := h.root
    txHash := h.txHash
    receiptHash := h.receiptHash
    bloom := h.bloom
    difficulty := h.difficulty
    number := h.number
    gasLimit := h.gasLimit
    gasUsed := h.gasUsed
    time := h.time
    extraNoSeal := h.extra.take (h.extra.length - extraSeal)
    mixDigest := h.mixDigest
    nonce := h.nonce
    dposRoot := h.dposRoot }

/-- Embedding of ecrecover.  The elliptic-curve primitive crypto.Ecrecover
followed by the Keccak address derivation is an external collaborator, passed
as the parameter ec taking the signing pre-image and the 65-byte signature
suffix.  The LRU signature cache is omitted: per the code and the spec it is a
pure memoisation of this computation, never a source of truth. -/
def ecrecover (ec : SigPreimage → List Nat → Except DposError Nat)
    (h : Header) : Except DposError Nat :=
  if h.extra.length < extraSeal then .error .missingSignature
  else ec (sigHash h) (h.extra.drop (h.extra.length - extraSeal))

/-- Embedding of verifyBlockSigner: recover the signer, require it to equal the
scheduled producer, then require it to equal the declared validator field. -/
def verifyBlockSigner (ec : SigPreimage → List Nat → Except DposError Nat)
    (producer : Nat) (h : Header) : Except DposError Unit :=
  match ecrecover ec h with
  | .error e => .error e
  | .ok signer =>
    if signer ≠ producer then .error .invalidBlockProducer
    else if signer ≠ h.validator then .error .mismatchSignerAndValidator
    else .ok ()

/-- Parent resolution shared by verifyHeader and verifySeal: the last element
of the supplied batch when it is nonempty, otherwise the chain lookup by
parent hash and number-1. -/
def resolveParent (chain : Chain) (parents : List Header) (h : Header)
    (number : Nat) : Option Header :=
  match parents.getLast? with
  | some p => some p
  | none => chain.getHeader h.parentHash (sub1u64 number)

/-- Embedding of verifyHeader.  The wall clock time.Now().Unix() is the
parameter now; the fork-field check misc.VerifyForkHashes is the external
parameter forkCheck (none = pass).  The parent is the last element of the
supplied parents batch when that batch is nonempty, otherwise a chain lookup.
The timestamp check reproduces the Go uint64 arithmetic
parent.Time.Uint64()+uint64(ProducerInterval) > header.Time.Uint64(),
including its wrap-around. -/
def verifyHeader (forkCheck : Header → Option DposError)
    (producerInterval : Int) (now : Int) (chain : Chain)
    (h : Header) (parents : List Header) : Option DposError :=
  match h.number with
  | none => some .unknownBlock
  | some number =>
    if now < h.time then some .futureBlock
    else if h.extra.length < extraVanity then some .missingVanity
    else if h.extra.length < extraVanity + extraSeal then some .missingSignature
    else if h.mixDigest ≠ 0 then some .invalidMixDigest
    else if h.difficulty ≠ 1 then some .invalidDifficulty
    else if h.uncleHash ≠ uncleHash then some .invalidUncleHash
    else match forkCheck h with
    | some e => some e
    | none =>
      match resolveParent chain parents h number with
      | none => some .unknownAncestor
      | some parent =>
        if hNum parent ≠ sub1u64 number ∨ parent.hash ≠ h.parentHash then
          some .unknownAncestor
        else if u64 h.time < (u64 parent.time + u64 producerInterval) % 2 ^ 64 then
          some .invalidTimestamp
        else none

/-- Map insertion validatorMap[addr] = true, with the map modelled as a
duplicate-free list whose length is the map size. -/
def insertAddr (a : Nat) (s : List Nat) : List Nat :=
  if a ∈ s then s else a :: s

/-- Result of one invocation of the finality-tracker loop: the optional error,
the confirmed header after the call, and the confirmed-head database slot. -/
structure LoopResult where
  err : Option DposError
  confirmed : Header
  db : Option Nat
  deriving Repr, DecidableEq

/-- Embedding of the backward walk inside updateConfirmedBlockHeader.  The
loop variable curHeader starts at the chain tip and moves to the parent; epoch
starts at the sentinel -1 and validatorMap at the empty map.  The fuel
argument bounds the number of iterations (the Go loop terminates because
parent numbers strictly decrease on a well-formed chain; fuel exhaustion is
modelled as the normal loop exit that leaves the confirmed header unchanged).
The database slot for include.ConfirmedBlockHead is modelled as an Option Nat
holding the stored hash; the Put of storeConfirmedBlockHeader cannot fail in
the model. -/
def updateLoop (getByHash : Nat → Option Header) (quorum : Nat)
    (epochInterval : Int) :
    Nat → Header → Int → List Nat → Header → Option Nat → LoopResult
  | 0, _, _, _, confirmed, db => { err := none, confirmed := confirmed, db := db }
  | fuel + 1, cur, epoch, vmap, confirmed, db =>
    if confirmed.hash ≠ cur.hash ∧ hNum confirmed < hNum cur then
      let curEpoch : Int := Int.tdiv cur.time epochInterval
      let epoch2 : Int := if curEpoch ≠ epoch then curEpoch else epoch
      let vmap2 : List Nat := if curEpoch ≠ epoch then [] else vmap
      if (hNum cur : Int) - (hNum confirmed : Int) <
          (quorum : Int) - (vmap2.length : Int) then
        { err := none, confirmed := confirmed, db := db }
      else
        let vmap3 := insertAddr cur.validator vmap2
        if quorum ≤ vmap3.length then
          { err := none, confirmed := cur, db := some cur.hash }
        else
          match getByHash cur.parentHash with
          | none => { err := some .nilBlockHeader, confirmed := confirmed, db := db }
          | some parent =>
            updateLoop getByHash quorum epochInterval fuel parent epoch2 vmap3
              confirmed db
    else { err := none, confirmed := confirmed, db := db }

/-- Process state of the tracker: the lazily initialised confirmed header
d.confirmedBlockHeader and the confirmed-head database slot. -/
structure TrackerState where
  confirmed : Option Header
  db : Option Nat
  deriving Repr, DecidableEq

/-- Result of updateConfirmedBlockHeader: optional error plus the state after
the call. -/
structure UpdateResult where
  err : Option DposError
  state : TrackerState
  deriving Repr, DecidableEq

/-- Embedding of loadConfirmedBlockHeader: read the stored hash (a missing
slot is the database error) and resolve it through the chain reader. -/
def loadConfirmedBlockHeader (chain : Chain) (db : Option Nat) :
    Except DposError Header :=
  match db with
  | none => .error .storageError
  | some k =>
    match chain.getHeaderByHash k with
    | none => .error .nilBlockHeader
    | some h => .ok h

/-- Embedding of updateConfirmedBlockHeader: lazy initialisation of the
confirmed header (stored slot, then the genesis header, then the load error),
followed by the backward walk from the current tip.  The fuel given to the
walk, tip number + 1, covers every walk on a chain whose parent numbers
decrease. -/
def updateConfirmedBlockHeader (quorum : Nat) (epochInterval : Int)
    (chain : Chain) (st : TrackerState) : UpdateResult :=
  let init : Except DposError Header :=
    match st.confirmed with
    | some c => .ok c
    | none =>
      match loadConfirmedBlockHeader chain st.db with
      | .ok h => .ok h
      | .error e =>
        match chain.getHeaderByNumber 0 with
        | some g => .ok g
        | none => .error e
  match init with
  | .error e => { err := some e, state := st }
  | .ok c =>
    let r := updateLoop chain.getHeaderByHash quorum epochInterval
      (hNum chain.currentHeader + 1) chain.currentHeader (-1) [] c st.db
    { err := r.err, state := { confirmed := some r.confirmed, db := r.db } }

/-- Confirmed block number of a tracker state (0 while unset). -/
def confirmedNumber (st : TrackerState) : Nat :=
  match st.confirmed with
  | some h => hNum h
  | none => 0

/-- Sequence of tracker invocations, each against its own chain view, keeping
the state an invocation leaves behind. -/
def runTracker (quorum : Nat) (epochInterval : Int) :
    List Chain → TrackerState → TrackerState
  | [], st => st
  | chain :: rest, st =>
    runTracker quorum epochInterval rest
      (updateConfirmedBlockHeader quorum epochInterval chain st).state

/-- Embedding of verifySeal.  The DposContext reconstruction
types.NewDposContextFromProto and the schedule query GetProducer are external
collaborators (ctxFromProto over the parent context root, getProducer over the
context handle and header.Time.Int64()).  A nil parent would make the Go code
fault when reading parent.DposContext; that branch is modelled as an error and
no theorem relies on it. -/
def verifySeal (ctxFromProto : Nat → Except DposError Nat)
    (getProducer : Nat → Int → Except DposError Nat)
    (ec : SigPreimage → List Nat → Except DposError Nat)
    (quorum : Nat) (epochInterval : Int) (chain : Chain) (st : TrackerState)
    (parents : List Header) (h : Header) : UpdateResult :=
  let number := hNum h
  if number = 0 then { err := some .unknownBlock, state := st }
  else
    match resolveParent chain parents h number with
    | none => { err := some .nilBlockHeader, state := st }
    | some parent =>
      match ctxFromProto parent.dposRoot with
      | .error e => { err := some e, state := st }
      | .ok ctx =>
        match getProducer ctx h.time with
        | .error e => { err := some e, state := st }
        | .ok producer =>
          match verifyBlockSigner ec producer h with
          | .error e => { err := some e, state := st }
          | .ok _ => updateConfirmedBlockHeader quorum epochInterval chain st

/-- Embedding of PrevSlot: int64((now-1)/ProducerInterval) * ProducerInterval
with Go division (truncation toward zero). -/
def PrevSlot (producerInterval : Int) (now : Int) : Int :=
  (Int.tdiv (now - 1) producerInterval) * producerInterval

/-- Embedding of NextSlot:
int64((now+ProducerInterval-1)/ProducerInterval) * ProducerInterval with Go
division (truncation toward zero). -/
def NextSlot (producerInterval : Int) (now : Int) : Int :=
  (Int.tdiv (now + producerInterval - 1) producerInterval) * producerInterval

/-- Ceiling of the rational quotient a / b for b > 0, used to state the
specification formula for NextSlot. -/
def ceilDiv (a b : Int) : Int := -((-a) / b)

/-- Embedding of CheckDeadline over the timestamp of the last block
(lastBlock.Time().Int64()) and the wall clock now.  Go % is truncated
remainder, Int.tmod. -/
def CheckDeadline (producerInterval epochInterval : Int)
    (lastBlockTime now : Int) : Except DposError Unit :=
  let prevSlot := PrevSlot producerInterval now
  let nextSlot := NextSlot producerInterval now
  if nextSlot ≤ lastBlockTime then .error .mintFutureBlock
  else
    let offset := Int.tmod now epochInterval
    if Int.tmod offset producerInterval ≠ 0 then .error .invalidMintBlockTime
    else if lastBlockTime = prevSlot ∨ nextSlot - now ≤ 1 then .ok ()
    else .error .invalidTimestamp

/-- Mint-count trie (BlockCntTrie), modelled as an association list from the
key pair (big-endian uint64 epoch bytes, validator address) to the stored
uint64 count.  Lookup takes the first matching entry; update removes the old
binding and prepends the new one. -/
abbrev MintTrie : Type := List ((Nat × Nat) × Nat)

/-- Trie read blockCntTrie.Get(epochBytes ++ validatorBytes). -/
def trieGet (t : MintTrie) (k : Nat × Nat) : Option Nat :=
  (List.find? (fun e => e.1 == k) t).map (fun e => e.2)

/-- Trie write TryUpdate(epochBytes ++ validatorBytes, cntBytes). -/
def trieUpdate (t : MintTrie) (k : Nat × Nat) (v : Nat) : MintTrie :=
  (k, v) :: List.filter (fun e => !(e.1 == k)) t

/-- Guard iter.Next() of updateMintCnt: the node iterator positioned at the
8-byte big-endian epoch key has a next entry exactly when the trie holds some
entry whose 28-byte key is lexicographically at or after that prefix; since
big-endian uint64 bytes compare like the numbers and every stored key extends
an 8-byte epoch prefix, that is: some entry has epoch part ≥ the prefix. -/
def hasEntryFrom (t : MintTrie) (epochKey : Nat) : Bool :=
  t.any (fun e => decide (epochKey ≤ e.1.1))

/-- Embedding of updateMintCnt.  Epochs are parentBlockTime / EpochInterval
and currentBlockTime / EpochInterval with Go (truncated) division; the epoch
key is the uint64 image of the epoch; the count read back from 8 bytes is
below 2^64 and the stored increment wraps mod 2^64 (int64 overflow followed by
the uint64 store). -/
def updateMintCnt (epochInterval : Int)
    (parentBlockTime currentBlockTime : Int) (validator : Nat)
    (trie : MintTrie) : MintTrie :=
  let currentEpoch := Int.tdiv parentBlockTime epochInterval
  let currentEpochKey := u64 currentEpoch
  let newEpoch := Int.tdiv currentBlockTime epochInterval
  let cnt : Nat :=
    if currentEpoch = newEpoch then
      if hasEntryFrom trie currentEpochKey then
        match trieGet trie (currentEpochKey, validator) with
        | some c => (c + 1) % 2 ^ 64
        | none => 1
      else 1
    else 1
  trieUpdate trie (u64 newEpoch, validator) cnt

/-- Header builder for concrete instances: a well-formed header with the given
number, timestamp, validator, parent hash and own hash, difficulty 1, zero mix
digest, canonical uncle hash and a 97-byte extra-data field. -/
def mkHeader (number : Nat) (time : Int) (validator : Nat)
    (parentHash hash : Nat) : Header :=
  { parentHash := parentHash
    uncleHash := uncleHash
    validator := validator
    coinbase := 0
    root := 0
    txHash := 0
    receiptHash := 0
    bloom := 0
    difficulty := 1
    number := some number
    gasLimit := 0
    gasUsed := 0
    time := time
    extra := List.replicate 97 0
    mixDigest := 0
    nonce := 0
    dposRoot := 0
    hash := hash }

/-- Genesis header of the section 8 scenario (t = 0). -/
def scenGenesis : Header := mkHeader 0 0 5 0 1000

/-- Scenario header at t = 70 signed by producer A (address 1). -/
def scenH7 : Header := mkHeader 7 70 1 1006 1007

/-- Scenario header at t = 80 signed by producer C (address 3). -/
def scenH8 : Header := mkHeader 8 80 3 1007 1008

/-- Scenario header at t = 90 signed by producer B (address 2). -/
def scenH9 : Header := mkHeader 9 90 2 1008 1009

/-- Scenario tip header at t = 100 signed by producer A (address 1). -/
def scenH10 : Header := mkHeader 10 100 1 1009 1010

/-- Hash lookup over the scenario chain. -/
def scenLookup : Nat → Option Header := fun k =>
  if k = 1000 then some scenGenesis
  else if k = 1007 then some scenH7
  else if k = 1008 then some scenH8
  else if k = 1009 then some scenH9
  else if k = 1010 then some scenH10
  else none

/-- Chain reader over the scenario chain with tip t = 100. -/
def scenChain : Chain :=
  { getHeader := fun h _ => scenLookup h
    getHeaderByHash := scenLookup
    getHeaderByNumber := fun n => if n = 0 then some scenGenesis else none
    currentHeader := scenH10 }

/-- Concrete recovery collaborator: yields address 1 when the signing
pre-image declares validator 1 and the unrelated address 7 otherwise,
reflecting that the pre-image covers the validator field, so tampering with
that field changes the recovered address. -/
def cxEc : SigPreimage → List Nat → Except DposError Nat :=
  fun p _ => .ok (if p.validator = 1 then 1 else 7)

/-- Well-formed header with validator 1, used for the seal-verification
instances. -/
def cxH1 : Header := mkHeader 5 50 1 900 2001

/-- Trivial chain reader with no headers, for closed header-validation
instances whose parent comes from the supplied batch or is never reached. -/
def trivChain : Chain :=
  { getHeader := fun _ _ => none
    getHeaderByHash := fun _ => none
    getHeaderByNumber := fun _ => none
    currentHeader := scenGenesis }

/-- Header with difficulty 2 and empty extra-data: the earlier vanity check
fires before the difficulty check. -/
def cxH7 : Header :=
  { parentHash := 0
    uncleHash := uncleHash
    validator := 1
    coinbase := 0
    root := 0
    txHash := 0
    receiptHash := 0
    bloom := 0
    difficulty := 2
    number := some 5
    gasLimit := 0
    gasUsed := 0
    time := 0
    extra := []
    mixDigest := 0
    nonce := 0
    dposRoot := 0
    hash := 4005 }

/-- Parent header of the concrete timestamp instances (number 4, time 10). -/
def cxParent6 : Header := mkHeader 4 10 1 0 3004

/-- Header with unaligned timestamp 21 on top of a parent at time 10,
interval 10: accepted although 21 is not a multiple of 10. -/
def cxH6 : Header := mkHeader 5 21 1 3004 3005

/-- Shared helper: one invocation of the tracker loop either leaves the
confirmed header untouched or promotes it to a header of strictly larger
number. -/
theorem updateLoop_mono (getByHash : Nat → Option Header) (quorum : Nat)
    (epochInterval : Int) :
    ∀ (fuel : Nat) (cur : Header) (epoch : Int) (vmap : List Nat)
      (confirmed : Header) (db : Option Nat),
    (updateLoop getByHash quorum epochInterval fuel cur epoch vmap confirmed
        db).confirmed = confirmed ∨
    hNum confirmed < hNum (updateLoop getByHash quorum epochInterval fuel cur
        epoch vmap confirmed db).confirmed := by
  intro fuel
  induction fuel with
  | zero => intro cur epoch vmap confirmed db; left; rfl
  | succ n ih =>
    intro cur epoch vmap confirmed db
    rw [updateLoop]
    by_cases hg : confirmed.hash ≠ cur.hash ∧ hNum confirmed < hNum cur
    · rw [if_pos hg]
      simp only
      split <;>
      · split
        · left; rfl
        · split
          · right; exact hg.2
          · split
            · left; rfl
            · exact ih _ _ _ _ _
    · rw [if_neg hg]; left; rfl

/-- Shared helper: whenever the fast-exit arithmetic of the walk holds at the
start of an iteration (with the witness set taken after the epoch adjustment),
that iteration returns success with the confirmed header and the database slot
unchanged. -/
theorem updateLoop_fastExit (getByHash : Nat → Option Header) (quorum : Nat)
    (epochInterval : Int) (fuel : Nat) (cur confirmed : Header) (epoch : Int)
    (vmap : List Nat) (db : Option Nat)
    (hc : (hNum cur : Int) - (hNum confirmed : Int) < (quorum : Int) -
      ((if Int.tdiv cur.time epochInterval ≠ epoch then ([] : List Nat)
        else vmap).length : Int)) :
    updateLoop getByHash quorum epochInterval (fuel + 1) cur epoch vmap
      confirmed db = { err := none, confirmed := confirmed, db := db } := by
  rw [updateLoop]
  by_cases hg : confirmed.hash ≠ cur.hash ∧ hNum confirmed < hNum cur
  · rw [if_pos hg]
    simp only
    rw [if_pos hc]
  · rw [if_neg hg]

/-- C1: at every visited header of the backward walk, if the number distance
from the confirmed header to the invocation tip is below quorum size minus the
size of the witness set, the walk returns success immediately, promoting
nothing and recording nothing.  The visited header lies at or below the tip
(the walk moves from the tip through parents), which is the hypothesis
hvisited; the witness set is the one the iteration works with, after the
epoch adjustment. -/
theorem claim_C1_fast_exit (getByHash : Nat → Option Header) (quorum : Nat)
    (epochInterval : Int) (fuel : Nat) (tip cur confirmed : Header)
    (epoch : Int) (vmap : List Nat) (db : Option Nat)
    (hvisited : hNum cur ≤ hNum tip)
    (hfast : (hNum tip : Int) - (hNum confirmed : Int) < (quorum : Int) -
      ((if Int.tdiv cur.time epochInterval ≠ epoch then ([] : List Nat)
        else vmap).length : Int)) :
    updateLoop getByHash quorum epochInterval (fuel + 1) cur epoch vmap
      confirmed db = { err := none, confirmed := confirmed, db := db } := by
  have h1 : (hNum cur : Int) ≤ (hNum tip : Int) := by exact_mod_cast hvisited
  exact updateLoop_fastExit getByHash quorum epochInterval fuel cur confirmed
    epoch vmap db (by omega)

/-- C1 witness: a concrete fast exit, quorum 15 against the scenario chain
with confirmed still at genesis. -/
theorem claim_C1_fast_exit_witness :
    updateLoop scenLookup 15 86400 1 scenH10 (-1) [] scenGenesis none =
      { err := none, confirmed := scenGenesis, db := none } :=
  claim_C1_fast_exit scenLookup 15 86400 0 scenH10 scenH10 scenGenesis (-1) []
    none (by decide) (by decide)

/-- C2: once recording the visited validator lifts the distinct witness set to
the quorum size, the walk promotes the confirmed header to exactly the visited
header, persists its hash in the database slot and stops with success; and on
the section 8 scenario (epoch 86400, interval 10, quorum 3, tip 100:A, 90:B,
80:C, 70:A, confirmed = genesis) the tracker confirms the header at t = 80,
not the one at t = 100 or t = 70. -/
theorem claim_C2_promotion :
    (∀ (getByHash : Nat → Option Header) (quorum : Nat) (epochInterval : Int)
      (fuel : Nat) (cur confirmed : Header) (epoch : Int) (vmap : List Nat)
      (db : Option Nat),
      confirmed.hash ≠ cur.hash ∧ hNum confirmed < hNum cur →
      ¬ ((hNum cur : Int) - (hNum confirmed : Int) < (quorum : Int) -
        ((if Int.tdiv cur.time epochInterval ≠ epoch then ([] : List Nat)
          else vmap).length : Int)) →
      quorum ≤ (insertAddr cur.validator
        (if Int.tdiv cur.time epochInterval ≠ epoch then ([] : List Nat)
          else vmap)).length →
      updateLoop getByHash quorum epochInterval (fuel + 1) cur epoch vmap
        confirmed db = { err := none, confirmed := cur, db := some cur.hash }) ∧
    updateConfirmedBlockHeader 3 86400 scenChain
      { confirmed := some scenGenesis, db := none } =
      { err := none, state := { confirmed := some scenH8, db := some 1008 } } ∧
    scenH8.time = 80 ∧ scenH10.time = 100 ∧ scenH7.time = 70 ∧
    scenH8 ≠ scenH10 ∧ scenH8 ≠ scenH7 := by
  refine ⟨?_, by decide, by decide, by decide, by decide, by decide, by decide⟩
  intro getByHash quorum epochInterval fuel cur confirmed epoch vmap db hg hslow hq
  rw [updateLoop, if_pos hg]
  simp only
  rw [if_neg hslow, if_pos hq]

/-- C2 witness: a concrete promotion, quorum 1 at the scenario tip. -/
theorem claim_C2_promotion_witness :
    updateLoop scenLookup 1 86400 1 scenH10 (-1) [] scenGenesis none =
      { err := none, confirmed := scenH10, db := some 1010 } :=
  claim_C2_promotion.1 scenLookup 1 86400 0 scenH10 scenGenesis (-1) [] none
    (by decide) (by decide) (by decide)

/-- Shared helper: a single tracker invocation never lowers the confirmed
block number. -/
theorem updateConfirmed_mono (quorum : Nat) (epochInterval : Int)
    (chain : Chain) (st : TrackerState) :
    confirmedNumber st ≤
      confirmedNumber (updateConfirmedBlockHeader quorum epochInterval chain
        st).state := by
  cases hc : st.confirmed with
  | none =>
    have : confirmedNumber st = 0 := by simp [confirmedNumber, hc]
    omega
  | some c =>
    have h := updateLoop_mono chain.getHeaderByHash quorum epochInterval
      (hNum chain.currentHeader + 1) chain.currentHeader (-1) [] c st.db
    simp only [updateConfirmedBlockHeader, hc, confirmedNumber]
    rcases h with h | h
    · rw [h]
    · exact Nat.le_of_lt h

/-- Shared helper: sequencing tracker invocations never lowers the confirmed
block number. -/
theorem runTracker_mono (quorum : Nat) (epochInterval : Int) :
    ∀ (chains : List Chain) (st : TrackerState),
    confirmedNumber st ≤
      confirmedNumber (runTracker quorum epochInterval chains st) := by
  intro chains
  induction chains with
  | nil => intro st; exact le_refl _
  | cons chain rest ih =>
    intro st
    exact le_trans (updateConfirmed_mono quorum epochInterval chain st) (ih _)

/-- C3: across any sequence of tracker invocations whose tips grow
monotonically, the confirmed block number never decreases, and each single
invocation either leaves the confirmed header exactly unchanged or promotes it
to a header of strictly larger number. -/
theorem claim_C3_monotonic (quorum : Nat) (epochInterval : Int)
    (chains : List Chain) (st : TrackerState)
    (hmono : List.Chain'
      (fun a b => hNum a.currentHeader ≤ hNum b.currentHeader) chains) :
    confirmedNumber st ≤
      confirmedNumber (runTracker quorum epochInterval chains st) ∧
    ∀ (chain : Chain) (st2 : TrackerState) (c : Header),
      st2.confirmed = some c →
      (updateConfirmedBlockHeader quorum epochInterval chain
        st2).state.confirmed = some c ∨
      ∃ h2, (updateConfirmedBlockHeader quorum epochInterval chain
        st2).state.confirmed = some h2 ∧ hNum c < hNum h2 := by
  refine ⟨runTracker_mono quorum epochInterval chains st, ?_⟩
  intro chain st2 c hc
  have h := updateLoop_mono chain.getHeaderByHash quorum epochInterval
    (hNum chain.currentHeader + 1) chain.currentHeader (-1) [] c st2.db
  simp only [updateConfirmedBlockHeader, hc]
  rcases h with h | h
  · left; rw [h]
  · right; exact ⟨_, rfl, h⟩

/-- C3 witness: a concrete one-chain sequence starting from genesis. -/
theorem claim_C3_monotonic_witness :
    confirmedNumber { confirmed := some scenGenesis, db := none } ≤
      confirmedNumber (runTracker 3 86400 [scenChain]
        { confirmed := some scenGenesis, db := none }) :=
  (claim_C3_monotonic 3 86400 [scenChain]
    { confirmed := some scenGenesis, db := none } (by simp)).1

/-- Shared helper: seal verification passes exactly when the recovered signer
is the scheduled producer and the producer is the declared validator. -/
theorem verifyBlockSigner_ok_iff (ec : SigPreimage → List Nat → Except DposError Nat)
    (producer : Nat) (h : Header) :
    verifyBlockSigner ec producer h = .ok () ↔
      (ecrecover ec h = .ok producer ∧ producer = h.validator) := by
  unfold verifyBlockSigner
  cases hr : ecrecover ec h with
  | error e => simp
  | ok s =>
    simp only
    by_cases h1 : s ≠ producer
    · rw [if_pos h1]
      constructor
      · intro hc; exact absurd hc (by simp)
      · rintro ⟨hc, -⟩
        exact absurd (Except.ok.inj hc) h1
    · push_neg at h1
      subst h1
      rw [if_neg (by simp)]
      by_cases h2 : s ≠ h.validator
      · rw [if_pos h2]
        constructor
        · intro hc; exact absurd hc (by simp)
        · rintro ⟨-, hc⟩; exact absurd hc h2
      · push_neg at h2
        rw [if_neg (by simpa using h2)]
        simp [h2]

/-- C4 counterexample: two headers identical except for the declared
validator, checked against the same scheduled producer; one passes, but the
other fails with InvalidBlockProducer rather than
MismatchSignerAndValidator, because changing the validator field changes the
signing pre-image and hence the recovered signer. -/
theorem claim_C4_counterexample :
    verifyBlockSigner cxEc 1 cxH1 = .ok () ∧
    cxH1.validator ≠ ({ cxH1 with validator := 2 } : Header).validator ∧
    verifyBlockSigner cxEc 1 { cxH1 with validator := 2 } =
      .error .invalidBlockProducer ∧
    DposError.invalidBlockProducer ≠ DposError.mismatchSignerAndValidator := by
  refine ⟨rfl, by decide, rfl, by decide⟩

/-- C4 amended: the two sequential checks behave as the claim states
(recovery error forwarded; signer different from the scheduled producer gives
InvalidBlockProducer; signer equal to the producer but different from the
declared validator gives MismatchSignerAndValidator; both equal passes), and
of two headers identical except for the declared validator at most one
passes; the failing one fails with MismatchSignerAndValidator exactly when
its recovered signer equals the producer, and with InvalidBlockProducer or a
recovery error otherwise. -/
theorem claim_C4_amended (ec : SigPreimage → List Nat → Except DposError Nat)
    (producer : Nat) (h : Header) :
    (∀ e, ecrecover ec h = .error e →
      verifyBlockSigner ec producer h = .error e) ∧
    (∀ s, ecrecover ec h = .ok s → s ≠ producer →
      verifyBlockSigner ec producer h = .error .invalidBlockProducer) ∧
    (∀ s, ecrecover ec h = .ok s → s = producer → s ≠ h.validator →
      verifyBlockSigner ec producer h = .error .mismatchSignerAndValidator) ∧
    (∀ s, ecrecover ec h = .ok s → s = producer → s = h.validator →
      verifyBlockSigner ec producer h = .ok ()) ∧
    (∀ v2, v2 ≠ h.validator →
      ¬ (verifyBlockSigner ec producer h = .ok () ∧
         verifyBlockSigner ec producer { h with validator := v2 } = .ok ())) := by
  refine ⟨?_, ?_, ?_, ?_, ?_⟩
  · intro e he; unfold verifyBlockSigner; rw [he]
  · intro s hs hne
    unfold verifyBlockSigner
    rw [hs]
    simp only
    rw [if_pos hne]
  · intro s hs hp hv
    unfold verifyBlockSigner
    subst hp
    rw [hs]
    simp only
    rw [if_neg (by simp), if_pos hv]
  · intro s hs hp hv
    subst hp
    exact (verifyBlockSigner_ok_iff ec s h).2 ⟨hs, hv⟩
  · rintro v2 hv ⟨hp1, hp2⟩
    have a1 := (verifyBlockSigner_ok_iff ec producer h).1 hp1
    have a2 := (verifyBlockSigner_ok_iff ec producer _).1 hp2
    have a3 : producer = v2 := a2.2
    exact hv (a3 ▸ a1.2.symm ▸ rfl)

/-- C4 witness: the amended mismatch branch at a concrete header whose
recovered signer equals the producer but not the declared validator. -/
theorem claim_C4_amended_witness :
    verifyBlockSigner cxEc 7 { cxH1 with validator := 2 } =
      .error .mismatchSignerAndValidator :=
  (claim_C4_amended cxEc 7 { cxH1 with validator := 2 }).2.2.1 7 rfl rfl
    (by decide)

/-- Shared helper: the Go truncated remainder is zero exactly on multiples. -/
theorem tmod_eq_zero_iff_dvd (a b : Int) : Int.tmod a b = 0 ↔ b ∣ a := by
  constructor
  · intro h
    have h2 := Int.tdiv_add_tmod a b
    rw [h, add_zero] at h2
    exact ⟨Int.tdiv a b, h2.symm⟩
  · rintro ⟨k, rfl⟩
    exact Int.mul_tmod_right b k

/-- C5: CheckDeadline fails with the future-block error when the last block
time is not strictly before NextSlot(now); otherwise fails with the
invalid-mint-time error when now mod epochInterval is not a multiple of the
producer interval; otherwise succeeds exactly when the last block sits in the
previous slot or the next slot is at most one second away, and fails with
InvalidTimestamp in all remaining cases. -/
theorem claim_C5_checkDeadline
    (producerInterval epochInterval lastBlockTime now : Int) :
    (NextSlot producerInterval now ≤ lastBlockTime →
      CheckDeadline producerInterval epochInterval lastBlockTime now =
        .error .mintFutureBlock) ∧
    (lastBlockTime < NextSlot producerInterval now →
      ¬ producerInterval ∣ Int.tmod now epochInterval →
      CheckDeadline producerInterval epochInterval lastBlockTime now =
        .error .invalidMintBlockTime) ∧
    (lastBlockTime < NextSlot producerInterval now →
      producerInterval ∣ Int.tmod now epochInterval →
      ((CheckDeadline producerInterval epochInterval lastBlockTime now =
          .ok () ↔
        (lastBlockTime = PrevSlot producerInterval now ∨
          NextSlot producerInterval now - now ≤ 1)) ∧
       (¬ (lastBlockTime = PrevSlot producerInterval now ∨
          NextSlot producerInterval now - now ≤ 1) →
        CheckDeadline producerInterval epochInterval lastBlockTime now =
          .error .invalidTimestamp))) := by
  refine ⟨?_, ?_, ?_⟩
  · intro h1
    simp only [CheckDeadline]
    rw [if_pos h1]
  · intro h1 h2
    have h3 : Int.tmod (Int.tmod now epochInterval) producerInterval ≠ 0 :=
      fun hz => h2 ((tmod_eq_zero_iff_dvd _ _).1 hz)
    simp only [CheckDeadline]
    rw [if_neg (not_le.mpr h1), if_pos h3]
  · intro h1 h2
    have h3 : Int.tmod (Int.tmod now epochInterval) producerInterval = 0 :=
      (tmod_eq_zero_iff_dvd _ _).2 h2
    constructor
    · simp only [CheckDeadline]
      rw [if_neg (not_le.mpr h1), if_neg (by simp [h3])]
      by_cases ho : lastBlockTime = PrevSlot producerInterval now ∨
        NextSlot producerInterval now - now ≤ 1
      · rw [if_pos ho]
        exact iff_of_true rfl ho
      · rw [if_neg ho]
        exact iff_of_false (by simp) ho
    · intro ho
      simp only [CheckDeadline]
      rw [if_neg (not_le.mpr h1), if_neg (by simp [h3]), if_neg ho]

/-- C5 witness: the success case at interval 10, epoch 86400, last block in
the previous slot. -/
theorem claim_C5_checkDeadline_witness :
    CheckDeadline 10 86400 90 100 = .ok () :=
  ((claim_C5_checkDeadline 10 86400 90 100).2.2 (by decide)
    ⟨10, by decide⟩).1.mpr (Or.inl (by decide))

/-- C7 counterexample: a header with difficulty 2 whose extra-data is empty is
rejected with MissingVanity, not InvalidDifficulty, because the checks run in
sequence and the first failure wins. -/
theorem claim_C7_counterexample :
    cxH7.difficulty ≠ 1 ∧
    verifyHeader (fun _ => none) 10 0 trivChain cxH7 [] =
      some .missingVanity ∧
    DposError.missingVanity ≠ DposError.invalidDifficulty := by
  refine ⟨by decide, rfl, by decide⟩

/-- C7 amended: a header with difficulty different from 1 that passes the
checks sequenced before the difficulty check (number present, timestamp not
in the future, extra-data long enough for vanity and signature, zero mix
digest) is rejected by verifyHeader with InvalidDifficulty; when an earlier
check fails, that earlier failure wins. -/
theorem claim_C7_amended (forkCheck : Header → Option DposError)
    (producerInterval now : Int) (chain : Chain) (h : Header)
    (parents : List Header) (n : Nat)
    (hn : h.number = some n)
    (ht : ¬ now < h.time)
    (hv : extraVanity ≤ h.extra.length)
    (hs : extraVanity + extraSeal ≤ h.extra.length)
    (hm : h.mixDigest = 0)
    (hd : h.difficulty ≠ 1) :
    verifyHeader forkCheck producerInterval now chain h parents =
      some .invalidDifficulty := by
  unfold verifyHeader
  rw [hn]
  simp only
  rw [if_neg ht, if_neg (not_lt.mpr hv), if_neg (not_lt.mpr hs),
    if_neg (by simp [hm]), if_pos hd]

/-- C7 witness: the amended statement at a concrete header of difficulty 2
passing all earlier checks. -/
theorem claim_C7_amended_witness :
    verifyHeader (fun _ => none) 10 50 trivChain
      { mkHeader 5 40 1 0 4006 with difficulty := 2 } [] =
      some .invalidDifficulty :=
  claim_C7_amended (fun _ => none) 10 50 trivChain
    { mkHeader 5 40 1 0 4006 with difficulty := 2 } [] 5 rfl (by decide)
    (by decide) (by decide) rfl (by decide)

/-- Shared helper: the uint64 image of an in-range value, as an integer, is
the value itself. -/
theorem u64_cast_eq (t : Int) (h0 : 0 ≤ t) (h1 : t < 2 ^ 64) :
    (u64 t : Int) = t := by
  unfold u64
  rw [Int.emod_eq_of_lt h0 h1]
  exact Int.toNat_of_nonneg h0

/-- C6 counterexample: verifyHeader accepts a header whose timestamp is not a
multiple of the producer interval; no slot-alignment check exists in header
validation. -/
theorem claim_C6_counterexample :
    verifyHeader (fun _ => none) 10 21 trivChain cxH6 [cxParent6] = none ∧
    ¬ ((10 : Int) ∣ cxH6.time) := by
  refine ⟨rfl, ?_⟩
  rintro ⟨k, hk⟩
  have : cxH6.time = 21 := rfl
  omega

/-- C6 amended: with a resolvable parent and in-range timestamps, every
header verifyHeader accepts has a timestamp at least the parent timestamp
plus the producer interval (no multiple-of-interval property holds, see the
counterexample), and a header passing the earlier checks whose timestamp is
below parent plus interval is rejected with InvalidTimestamp. -/
theorem claim_C6_amended (forkCheck : Header → Option DposError)
    (producerInterval now : Int) (chain : Chain) (h parent : Header)
    (parents : List Header) (n : Nat)
    (hn : h.number = some n)
    (hpar : resolveParent chain parents h n = some parent)
    (ht0 : 0 ≤ h.time) (ht1 : h.time < 2 ^ 64)
    (hp0 : 0 ≤ parent.time)
    (hp1 : parent.time + producerInterval < 2 ^ 64)
    (hi0 : 0 < producerInterval) :
    (verifyHeader forkCheck producerInterval now chain h parents = none →
      parent.time + producerInterval ≤ h.time) ∧
    (¬ now < h.time → extraVanity ≤ h.extra.length →
      extraVanity + extraSeal ≤ h.extra.length → h.mixDigest = 0 →
      h.difficulty = 1 → h.uncleHash = uncleHash → forkCheck h = none →
      hNum parent = sub1u64 n → parent.hash = h.parentHash →
      h.time < parent.time + producerInterval →
      verifyHeader forkCheck producerInterval now chain h parents =
        some .invalidTimestamp) := by
  have e1 : (u64 h.time : Int) = h.time := u64_cast_eq _ ht0 ht1
  have e2 : (u64 parent.time : Int) = parent.time :=
    u64_cast_eq _ hp0 (by omega)
  have e3 : (u64 producerInterval : Int) = producerInterval :=
    u64_cast_eq _ (le_of_lt hi0) (by omega)
  have e4 : (u64 parent.time + u64 producerInterval) % 2 ^ 64 =
      u64 parent.time + u64 producerInterval := by
    apply Nat.mod_eq_of_lt
    omega
  constructor
  · intro hr
    unfold verifyHeader at hr
    rw [hn] at hr
    simp only at hr
    by_cases c1 : now < h.time
    · rw [if_pos c1] at hr; cases hr
    · rw [if_neg c1] at hr
      by_cases c2 : h.extra.length < extraVanity
      · rw [if_pos c2] at hr; cases hr
      · rw [if_neg c2] at hr
        by_cases c3 : h.extra.length < extraVanity + extraSeal
        · rw [if_pos c3] at hr; cases hr
        · rw [if_neg c3] at hr
          by_cases c4 : h.mixDigest ≠ 0
          · rw [if_pos c4] at hr; cases hr
          · rw [if_neg c4] at hr
            by_cases c5 : h.difficulty ≠ 1
            · rw [if_pos c5] at hr; cases hr
            · rw [if_neg c5] at hr
              by_cases c6 : h.uncleHash ≠ uncleHash
              · rw [if_pos c6] at hr; cases hr
              · rw [if_neg c6] at hr
                cases hfk : forkCheck h with
                | some e => rw [hfk] at hr; simp only at hr; cases hr
                | none =>
                  rw [hfk] at hr
                  simp only at hr
                  rw [hpar] at hr
                  simp only at hr
                  by_cases c7 : hNum parent ≠ sub1u64 n ∨
                    parent.hash ≠ h.parentHash
                  · rw [if_pos c7] at hr; cases hr
                  · rw [if_neg c7] at hr
                    by_cases c8 : u64 h.time <
                      (u64 parent.time + u64 producerInterval) % 2 ^ 64
                    · rw [if_pos c8] at hr; cases hr
                    · rw [e4] at c8
                      omega
  · intro ht hv hs hm hd hu hfk hpn hph htime
    unfold verifyHeader
    rw [hn]
    simp only
    rw [if_neg ht, if_neg (not_lt.mpr hv), if_neg (not_lt.mpr hs),
      if_neg (by simp [hm]), if_neg (by simp [hd]), if_neg (by simp [hu]),
      hfk, hpar]
    simp only
    rw [if_neg (by simp [hpn, hph]),
      if_pos (by rw [e4]; omega)]

/-- C6 witness: the amended rejection branch at a concrete header with
timestamp 15 over a parent at time 10 and interval 10. -/
theorem claim_C6_amended_witness :
    verifyHeader (fun _ => none) 10 100 trivChain (mkHeader 5 15 1 3004 3006)
      [cxParent6] = some .invalidTimestamp :=
  (claim_C6_amended (fun _ => none) 10 100 trivChain
    (mkHeader 5 15 1 3004 3006) cxParent6 [cxParent6] 5 rfl rfl (by decide)
    (by decide) (by decide) (by decide) (by decide)).2 (by decide)
    (by decide) (by decide) rfl rfl rfl rfl (by decide) rfl (by decide)

/-- Shared helper: a successful lookup of a key with epoch part a implies the
iterator positioned at the epoch prefix a finds an entry. -/
theorem trieGet_hasEntry (t : MintTrie) (a b c : Nat)
    (h : trieGet t (a, b) = some c) : hasEntryFrom t a = true := by
  induction t with
  | nil => simp [trieGet] at h
  | cons e rest ih =>
    by_cases he : (e.1 == (a, b)) = true
    · have h2 : e.1 = (a, b) := by simpa using he
      unfold hasEntryFrom
      simp [List.any_cons, h2]
    · unfold trieGet at h
      rw [List.find?_cons] at h
      rw [Bool.not_eq_true] at he
      rw [he] at h
      have h3 := ih h
      unfold hasEntryFrom at h3 ⊢
      simp [List.any_cons, h3]

/-- C8: updateMintCnt computes the parent epoch and the new epoch by
integer-dividing the timestamps by the epoch interval; when they agree it
writes the previous count of the validator for that epoch (0 when absent)
plus one, and when they differ it writes exactly 1, in both cases under the
key made of the new epoch and the validator address; counts for a new epoch
therefore start at 1. -/
theorem claim_C8_updateMintCnt
    (epochInterval parentBlockTime currentBlockTime : Int) (validator : Nat)
    (trie : MintTrie) (hpos : 0 < epochInterval) :
    (Int.tdiv parentBlockTime epochInterval =
        Int.tdiv currentBlockTime epochInterval →
      (trieGet trie
          (u64 (Int.tdiv parentBlockTime epochInterval), validator) = none →
        updateMintCnt epochInterval parentBlockTime currentBlockTime validator
            trie =
          trieUpdate trie
            (u64 (Int.tdiv currentBlockTime epochInterval), validator) 1) ∧
      (∀ c, trieGet trie
          (u64 (Int.tdiv parentBlockTime epochInterval), validator) = some c →
        c + 1 < 2 ^ 64 →
        updateMintCnt epochInterval parentBlockTime currentBlockTime validator
            trie =
          trieUpdate trie
            (u64 (Int.tdiv currentBlockTime epochInterval), validator)
            (c + 1))) ∧
    (Int.tdiv parentBlockTime epochInterval ≠
        Int.tdiv currentBlockTime epochInterval →
      updateMintCnt epochInterval parentBlockTime currentBlockTime validator
          trie =
        trieUpdate trie
          (u64 (Int.tdiv currentBlockTime epochInterval), validator) 1) := by
  constructor
  · intro heq
    constructor
    · intro habs
      unfold updateMintCnt
      simp only
      rw [if_pos heq]
      by_cases hg : hasEntryFrom trie
          (u64 (Int.tdiv parentBlockTime epochInterval)) = true
      · rw [if_pos hg, habs]
      · rw [if_neg hg]
    · intro c hsome hlt
      unfold updateMintCnt
      simp only
      rw [if_pos heq, if_pos (trieGet_hasEntry trie _ validator c hsome),
        hsome]
      simp only
      rw [Nat.mod_eq_of_lt hlt]
  · intro hne
    unfold updateMintCnt
    simp only
    rw [if_neg hne]

/-- C8 witness: same epoch, existing count 4 incremented to 5 under the key
of epoch 0 and validator 1. -/
theorem claim_C8_updateMintCnt_witness :
    updateMintCnt 86400 100 200 1 [((0, 1), 4)] =
      trieUpdate [((0, 1), 4)] (u64 (Int.tdiv 200 86400), 1) (4 + 1) :=
  ((claim_C8_updateMintCnt 86400 100 200 1 [((0, 1), 4)] (by decide)).1
    (by decide)).2 4 (by decide) (by decide)

/-- Shared helper: the add-and-divide form of ceiling division for a positive
divisor. -/
theorem ediv_add_sub_one (a i : Int) (hi : 0 < i) :
    (a + i - 1) / i = ceilDiv a i := by
  have hi0 : i ≠ 0 := ne_of_gt hi
  have hr0 : 0 ≤ a % i := Int.emod_nonneg a hi0
  have hr1 : a % i < i := Int.emod_lt_of_pos a hi
  have ha : a = i * (a / i) + a % i := (Int.ediv_add_emod a i).symm
  set q := a / i with hq
  set r := a % i with hr
  unfold ceilDiv
  by_cases hz : r = 0
  · have e1 : a + i - 1 = (i - 1) + q * i := by rw [ha, hz]; ring
    have e2 : -a = -q * i := by rw [ha, hz]; ring
    rw [e1, Int.add_mul_ediv_right _ _ hi0,
      Int.ediv_eq_zero_of_lt (by omega) (by omega), e2,
      Int.mul_ediv_cancel _ hi0]
    ring
  · have hz1 : 1 ≤ r := by omega
    have e1 : a + i - 1 = (r - 1) + (q + 1) * i := by rw [ha]; ring
    have e2 : -a = (i - r) + (-q - 1) * i := by rw [ha]; ring
    rw [e1, Int.add_mul_ediv_right _ _ hi0,
      Int.ediv_eq_zero_of_lt (by omega) (by omega), e2,
      Int.add_mul_ediv_right _ _ hi0,
      Int.ediv_eq_zero_of_lt (by omega) (by omega)]
    ring

/-- Shared helper: NextSlot never lies before its argument. -/
theorem le_nextSlot (i x : Int) (hi : 0 < i) : x ≤ NextSlot i x := by
  unfold NextSlot
  by_cases hq : 0 ≤ x + i - 1
  · rw [Int.tdiv_eq_ediv hq (le_of_lt hi)]
    have h1 := Int.ediv_add_emod (x + i - 1) i
    have h2 : (x + i - 1) % i < i := Int.emod_lt_of_pos _ hi
    have h3 : 0 ≤ (x + i - 1) % i := Int.emod_nonneg _ (ne_of_gt hi)
    have h4 : ((x + i - 1) / i) * i = i * ((x + i - 1) / i) := mul_comm _ _
    omega
  · push_neg at hq
    rw [show x + i - 1 = -(1 - x - i) from by ring, Int.neg_tdiv,
      Int.tdiv_eq_ediv (by omega) (le_of_lt hi)]
    have h1 := Int.ediv_add_emod (1 - x - i) i
    have h2 : (1 - x - i) % i < i := Int.emod_lt_of_pos _ hi
    have h3 : 0 ≤ (1 - x - i) % i := Int.emod_nonneg _ (ne_of_gt hi)
    have h4 : -((1 - x - i) / i) * i = -(i * ((1 - x - i) / i)) := by ring
    omega

/-- C9 counterexample: at t = 0 with interval 10, PrevSlot is 0 under the Go
truncated division while the floor formula of the claim gives -10. -/
theorem claim_C9_counterexample :
    PrevSlot 10 0 = 0 ∧ ((0 - 1 : Int) / 10) * 10 = -10 ∧
    PrevSlot 10 0 ≠ ((0 - 1 : Int) / 10) * 10 := by decide

/-- C9 amended: for positive t the claimed floor and ceiling formulas hold
(truncated and floor division agree on nonnegative arguments), and for every
t both slots are exact multiples of the interval with
NextSlot(PrevSlot(t)) at or after PrevSlot(t). -/
theorem claim_C9_amended (i t : Int) (hi : 0 < i) :
    (1 ≤ t →
      PrevSlot i t = ((t - 1) / i) * i ∧
      NextSlot i t = ceilDiv t i * i) ∧
    PrevSlot i t ≤ NextSlot i (PrevSlot i t) ∧
    i ∣ PrevSlot i t ∧ i ∣ NextSlot i t := by
  refine ⟨?_, le_nextSlot i _ hi, dvd_mul_left i _, dvd_mul_left i _⟩
  intro ht
  constructor
  · unfold PrevSlot
    rw [Int.tdiv_eq_ediv (by omega) (le_of_lt hi)]
  · unfold NextSlot
    rw [Int.tdiv_eq_ediv (by omega) (le_of_lt hi), ediv_add_sub_one t i hi]

/-- C9 witness: the amended formulas at interval 10 and t = 95. -/
theorem claim_C9_amended_witness :
    PrevSlot 10 95 = ((95 - 1 : Int) / 10) * 10 ∧
    NextSlot 10 95 = ceilDiv 95 10 * 10 :=
  (claim_C9_amended 10 95 (by decide)).1 (by decide)

/-- C10: seal verification of a header with number 0 fails with the
unknown-block error for every chain reader, context reconstruction, producer
schedule, recovery collaborator and tracker state, so no parent lookup,
schedule query, signer recovery or confirmed-header update can influence the
outcome, and the state is unchanged. -/
theorem claim_C10_genesis (ctxFromProto : Nat → Except DposError Nat)
    (getProducer : Nat → Int → Except DposError Nat)
    (ec : SigPreimage → List Nat → Except DposError Nat)
    (quorum : Nat) (epochInterval : Int) (chain : Chain) (st : TrackerState)
    (parents : List Header) (h : Header)
    (h0 : h.number = some 0) :
    verifySeal ctxFromProto getProducer ec quorum epochInterval chain st
      parents h = { err := some .unknownBlock, state := st } := by
  unfold verifySeal
  rw [if_pos (by simp [hNum, h0])]

/-- C10 witness: the genesis header of the scenario chain under arbitrary
concrete collaborators. -/
theorem claim_C10_genesis_witness :
    verifySeal (fun _ => .ok 0) (fun _ _ => .ok 0) cxEc 3 86400 trivChain
      { confirmed := none, db := none } [] scenGenesis =
      { err := some .unknownBlock,
        state := { confirmed := none, db := none } } :=
  claim_C10_genesis (fun _ => .ok 0) (fun _ _ => .ok 0) cxEc 3 86400 trivChain
    { confirmed := none, db := none } [] scenGenesis rfl

end Dpos
